import Mathlib

/-!
Shallow embedding of the playbook engine of the Intake Assistant repository
(`playbook.py`, `curator_agent.py`).  Timestamps are modelled abstractly as
strings (one clock reading per mutating call); Python floats are modelled as
rationals; JSON dictionaries are modelled as structures with `Option` fields
for keys read through `dict.get`.
-/

namespace Intake

/-- Model of `PlaybookBullet` (playbook.py).  The `confidence` is not a field:
it is recomputed by `get_confidence_score` on every read. -/
structure PlaybookBullet where
  id : String
  content : String
  helpful_count : Nat
  harmful_count : Nat
  «section» : String
  created_at : String
  last_updated : String
deriving DecidableEq

/-- `PlaybookBullet._generate_id`: the id is derived from the creation-time
clock reading alone (`bullet_` followed by the formatted timestamp); there is
no random suffix. -/
def mkId (ts : String) : String := "bullet_" ++ ts

/-- The `PlaybookBullet.__init__` path with `bullet_id = None`: a fresh id is
generated from the clock and both timestamps are set to the creation time. -/
def newBullet (content sec ts : String) : PlaybookBullet :=
  { id := mkId ts, content := content, helpful_count := 0, harmful_count := 0,
    «section» := sec, created_at := ts, last_updated := ts }

/-- `PlaybookBullet.mark_helpful`. -/
def PlaybookBullet.mark_helpful (b : PlaybookBullet) (ts : String) : PlaybookBullet :=
  { b with helpful_count := b.helpful_count + 1, last_updated := ts }

/-- `PlaybookBullet.mark_harmful`. -/
def PlaybookBullet.mark_harmful (b : PlaybookBullet) (ts : String) : PlaybookBullet :=
  { b with harmful_count := b.harmful_count + 1, last_updated := ts }

/-- `PlaybookBullet.get_confidence_score`: `0.5` when there is no feedback,
otherwise `helpful_count / (helpful_count + harmful_count)`. -/
def PlaybookBullet.get_confidence_score (b : PlaybookBullet) : ℚ :=
  if b.helpful_count + b.harmful_count = 0 then 1/2
  else (b.helpful_count : ℚ) / ((b.helpful_count : ℚ) + (b.harmful_count : ℚ))

/-- Model of the `Playbook` store state: the bullet list and the version tag.
Persistence (`save`) is modelled separately as production of a
`PlaybookData` value. -/
structure Playbook where
  bullets : List PlaybookBullet
  version : String
deriving DecidableEq

/-- `Playbook.add_bullet`: construct a fresh bullet, append it, persist,
return it. -/
def Playbook.add_bullet (pb : Playbook) (content sec ts : String) :
    PlaybookBullet × Playbook :=
  let b := newBullet content sec ts
  (b, { pb with bullets := pb.bullets ++ [b] })

/-- `Playbook.remove_bullet`: drop every bullet whose id matches; report
success iff the list shrank. -/
def Playbook.remove_bullet (pb : Playbook) (bullet_id : String) :
    Bool × Playbook :=
  let remaining := pb.bullets.filter (fun b => decide (b.id ≠ bullet_id))
  if remaining.length < pb.bullets.length then
    (true, { pb with bullets := remaining })
  else
    (false, pb)

/-- The body of the matching branch of `Playbook.modify_bullet`: content
replacement when `new_content` is truthy (present and non-empty), then the
helpful increment, then the harmful increment. -/
def applyModifications (b : PlaybookBullet) (new_content : Option String)
    (mh mharm : Bool) (ts : String) : PlaybookBullet :=
  let b1 := if new_content.getD "" ≠ "" then
      { b with content := new_content.getD "", last_updated := ts }
    else b
  let b2 := if mh then b1.mark_helpful ts else b1
  if mharm then b2.mark_harmful ts else b2

/-- The loop of `Playbook.modify_bullet`: find the first bullet with the
given id, update it in place, return whether one was found. -/
def modifyFirst (bullet_id : String) (new_content : Option String)
    (mh mharm : Bool) (ts : String) :
    List PlaybookBullet → Bool × List PlaybookBullet
  | [] => (false, [])
  | b :: rest =>
    if b.id = bullet_id then
      (true, applyModifications b new_content mh mharm ts :: rest)
    else
      let r := modifyFirst bullet_id new_content mh mharm ts rest
      (r.1, b :: r.2)

/-- `Playbook.modify_bullet`. -/
def Playbook.modify_bullet (pb : Playbook) (bullet_id : String)
    (new_content : Option String) (mh mharm : Bool) (ts : String) :
    Bool × Playbook :=
  let r := modifyFirst bullet_id new_content mh mharm ts pb.bullets
  (r.1, { pb with bullets := r.2 })

/-- `Playbook.get_bullets_by_section`. -/
def Playbook.get_bullets_by_section (pb : Playbook) (sec : String) :
    List PlaybookBullet :=
  pb.bullets.filter (fun b => decide (b.«section» = sec))

/-- Stable insertion used to model Python `sorted(..., key=confidence,
reverse=True)`: an element is placed before the first element whose
confidence is `≤` its own, so earlier elements win ties. -/
def orderedInsertDesc (x : PlaybookBullet) :
    List PlaybookBullet → List PlaybookBullet
  | [] => [x]
  | y :: ys =>
    if y.get_confidence_score ≤ x.get_confidence_score then x :: y :: ys
    else y :: orderedInsertDesc x ys

/-- Stable descending sort by confidence, the model of
`sorted(self.bullets, key=lambda b: b.get_confidence_score(), reverse=True)`. -/
def sortByConfDesc : List PlaybookBullet → List PlaybookBullet
  | [] => []
  | x :: xs => orderedInsertDesc x (sortByConfDesc xs)

/-- `Playbook.get_all_bullets`. -/
def Playbook.get_all_bullets (pb : Playbook) : List PlaybookBullet :=
  sortByConfDesc pb.bullets

/-- The selection stage of `Playbook.to_prompt_text`: filter to the requested
sections when a non-empty list is passed (Python truthiness of `sections`),
sort by descending confidence, and truncate to `top_k` when a non-zero value
is passed (Python truthiness of `top_k`). -/
def selectedBullets (pb : Playbook) (sections : Option (List String))
    (top_k : Option Nat) : List PlaybookBullet :=
  let bullets_to_use :=
    if sections.getD [] ≠ [] then
      pb.bullets.filter (fun b => decide (b.«section» ∈ sections.getD []))
    else pb.bullets
  let ranked := sortByConfDesc bullets_to_use
  if top_k.getD 0 ≠ 0 then ranked.take (top_k.getD 0) else ranked

/-- The keys of the `sections_dict` built by `to_prompt_text`, in Python dict
insertion order: each section in order of first appearance. -/
def collectSections (l : List PlaybookBullet) : List String :=
  l.foldl (fun acc b => if b.«section» ∈ acc then acc else acc ++ [b.«section»]) []

/-- The `sections_dict` of `to_prompt_text`: surviving bullets grouped by
section, groups ordered by first appearance of the section. -/
def groupBySection (l : List PlaybookBullet) :
    List (String × List PlaybookBullet) :=
  (collectSections l).map (fun s => (s, l.filter (fun b => decide (b.«section» = s))))

/-- One `- <content> [confidence: <score>]` line.  The Python code prints the
confidence rounded to two decimals; the numeric rendering is abstracted to
`toString` of the exact rational. -/
def renderBullet (b : PlaybookBullet) : String :=
  "- " ++ b.content ++ " [confidence: " ++ toString b.get_confidence_score ++ "]\n"

/-- Model of Python `str.title()` on section labels. -/
def titleCase (s : String) : String :=
  String.intercalate " " ((s.splitOn " ").map String.capitalize)

/-- One `**Section:**` block of the prompt. -/
def renderSection (p : String × List PlaybookBullet) : String :=
  "**" ++ titleCase (p.1.replace "_" " ") ++ ":**\n"
    ++ String.join (p.2.map renderBullet) ++ "\n"

/-- The fixed prompt header of `to_prompt_text`. -/
def promptHeader : String :=
  "You are a friendly and empathetic medical intake assistant named \x27HealthBot\x27.\n\n"

/-- Rendering stage of `to_prompt_text`. -/
def renderPrompt (groups : List (String × List PlaybookBullet)) : String :=
  promptHeader ++ String.join (groups.map renderSection)

/-- `Playbook.to_prompt_text`. -/
def Playbook.to_prompt_text (pb : Playbook) (sections : Option (List String))
    (top_k : Option Nat) : String :=
  renderPrompt (groupBySection (selectedBullets pb sections top_k))

/-- The dictionary produced by `Playbook.get_statistics`.  Python builds
`sections` with `list(set(...))`, whose order is unspecified, hence a
`Finset`. -/
structure PlaybookStats where
  version : String
  total_bullets : Nat
  sections : Finset String
  total_helpful_feedback : Nat
  total_harmful_feedback : Nat
  average_confidence : ℚ
deriving DecidableEq

/-- `Playbook.get_statistics`. -/
def Playbook.get_statistics (pb : Playbook) : PlaybookStats :=
  { version := pb.version
    total_bullets := pb.bullets.length
    sections := (pb.bullets.map (fun b => b.«section»)).toFinset
    total_helpful_feedback := (pb.bullets.map (fun b => b.helpful_count)).sum
    total_harmful_feedback := (pb.bullets.map (fun b => b.harmful_count)).sum
    average_confidence :=
      if pb.bullets.length = 0 then 0
      else (pb.bullets.map (fun b => b.get_confidence_score)).sum / pb.bullets.length }

/-- The JSON dictionary written for one bullet (`PlaybookBullet.to_dict`).
Fields read back through `dict.get` with a default are `Option`-valued so a
hand-edited file may omit them; `to_dict` always writes them. -/
structure BulletDict where
  id : String
  content : String
  helpful_count : Option Nat
  harmful_count : Option Nat
  «section» : String
  created_at : Option String
  last_updated : Option String
deriving DecidableEq

/-- `PlaybookBullet.to_dict`. -/
def PlaybookBullet.to_dict (b : PlaybookBullet) : BulletDict :=
  { id := b.id, content := b.content, helpful_count := some b.helpful_count,
    harmful_count := some b.harmful_count, «section» := b.«section»,
    created_at := some b.created_at, last_updated := some b.last_updated }

/-- `PlaybookBullet.from_dict`: the constructor runs with the given id (no
fresh id is generated) and stamps `ts` as creation time; stored counters and
timestamps then override the defaults when present. -/
def PlaybookBullet.from_dict (d : BulletDict) (ts : String) : PlaybookBullet :=
  { id := d.id, content := d.content,
    helpful_count := d.helpful_count.getD 0,
    harmful_count := d.harmful_count.getD 0,
    «section» := d.«section»,
    created_at := d.created_at.getD ts,
    last_updated := d.last_updated.getD ts }

/-- `__version__` in playbook.py. -/
def defaultVersion : String := "1.1"

/-- The persisted JSON document (`Playbook.save` output / `Playbook.load`
input).  `version` is read back through `dict.get` with the module default. -/
structure PlaybookData where
  version : Option String
  last_updated : String
  bullets : List BulletDict
deriving DecidableEq

/-- `Playbook.save`: the durable artifact written at time `ts`. -/
def Playbook.save (pb : Playbook) (ts : String) : PlaybookData :=
  { version := some pb.version, last_updated := ts,
    bullets := pb.bullets.map PlaybookBullet.to_dict }

/-- `Playbook.load` (successful-parse path): rebuild every bullet with
`from_dict`; `ts` is the load-time clock reading used by the constructor for
defaulted timestamps. -/
def Playbook.load (d : PlaybookData) (ts : String) : Playbook :=
  { bullets := d.bullets.map (fun bd => PlaybookBullet.from_dict bd ts),
    version := d.version.getD defaultVersion }

/-- The nine seed bullets of `_initialize_default_playbook`
(content, section). -/
def defaultBulletSpecs : List (String × String) :=
  [("NEVER provide a diagnosis, suggest treatments, or offer any form of medical advice. Your role is strictly for information gathering.",
    "core_rules"),
   ("If the user asks for a diagnosis or advice, gently deflect: \x27I am not qualified to provide a diagnosis, but I will make sure to document everything you\x27ve told me for the doctor.\x27",
    "core_rules"),
   ("Always speak in a clear, simple, and reassuring tone. Use short sentences.",
    "communication_style"),
   ("Acknowledge the patient\x27s symptom before asking clarifying questions. Example: \x27I\x27m sorry to hear you have a headache. Could you tell me more about where it hurts?\x27",
    "communication_style"),
   ("Start with a broad and welcoming question. Example: \x27I\x27m here to listen. Could you please tell me what\x27s been bothering you?\x27",
    "questioning_strategy"),
   ("Ask about when the symptoms started. Example: \x27When did you first start noticing this?\x27",
    "questioning_strategy"),
   ("Ask what makes symptoms better or worse. Example: \x27Is there anything that seems to make the symptom better or worse?\x27",
    "questioning_strategy"),
   ("Use open-ended questions to gather more details. Example: \x27Can you describe that feeling in more detail?\x27",
    "questioning_strategy"),
   ("If the patient describes an emergency symptom (chest pain, difficulty breathing, severe bleeding), immediately advise them to seek emergency care.",
    "error_prevention")]

/-- `Playbook._initialize_default_playbook`: each seed bullet is constructed
at its own clock reading, taken from `tss`. -/
def initialize_default_playbook (tss : List String) : Playbook :=
  { bullets := List.zipWith (fun p ts => newBullet p.1 p.2 ts) defaultBulletSpecs tss,
    version := defaultVersion }

/-- A store mutation as invokable through the Playbook API (the operations
the curator executor and the deduplication engine are built from). -/
inductive PbOp where
  | add (content sec : String)
  | remove (bullet_id : String)
  | modify (bullet_id : String) (new_content : Option String) (mh mharm : Bool)
deriving DecidableEq

/-- Apply one operation at one clock reading. -/
def applyOp (pb : Playbook) : PbOp × String → Playbook
  | (.add c s, ts) => (pb.add_bullet c s ts).2
  | (.remove i, _) => (pb.remove_bullet i).2
  | (.modify i nc h hm, ts) => (pb.modify_bullet i nc h hm ts).2

/-- Run a sequence of operations, each with its own clock reading. -/
def runOps : Playbook → List (PbOp × String) → Playbook
  | pb, [] => pb
  | pb, p :: rest => runOps (applyOp pb p) rest

/-- One operation dictionary proposed by the curator LLM
(curator_agent.py).  Every key may be absent, so every field is `Option`;
`op.get("type")` and `op.get("reasoning", ...)` never raise, while
`op["content"]`, `op["section"]`, `op["bullet_id"]` raise `KeyError` when the
field is `none`. -/
structure CurOp where
  type : Option String
  content : Option String
  «section» : Option String
  bullet_id : Option String
  new_content : Option String
  reasoning : Option String
deriving DecidableEq

/-- One entry of the result list built by `execute_operations`.  The
exception branch writes no `bullet_id` key, hence the `Option`. -/
structure OpResult where
  operation : Option String
  success : Bool
  bullet_id : Option String
  reasoning : String
  message : String
deriving DecidableEq

/-- Placeholder operation used only as the default of positional lookups in
statements about `execute_operations`. -/
def defaultCurOp : CurOp :=
  { type := none, content := none, «section» := none, bullet_id := none,
    new_content := none, reasoning := none }

/-- Placeholder result used only as the default of positional lookups in
statements about `execute_operations`. -/
def defaultOpResult : OpResult :=
  { operation := none, success := false, bullet_id := none, reasoning := "",
    message := "" }

/-- The body of the `for op in operations` loop of `execute_operations`:
one operation applied to the store, producing the updated store and the
per-operation result.  A missing required field (`KeyError` inside the
`try`) becomes a failure result; an unknown or missing `type` falls through
to the failure branch of the `elif` chain. -/
def executeOp (pb : Playbook) (op : CurOp) (ts : String) : Playbook × OpResult :=
  let reasoning := op.reasoning.getD "No reasoning provided"
  if op.type = some "add" then
    match op.content, op.«section» with
    | some c, some s =>
      let r := pb.add_bullet c s ts
      (r.2, { operation := some "add", success := true, bullet_id := some r.1.id,
              reasoning := reasoning,
              message := "Added new bullet to section " ++ s })
    | _, _ =>
      (pb, { operation := some "add", success := false, bullet_id := none,
             reasoning := reasoning,
             message := "Error executing operation: KeyError" })
  else if op.type = some "remove" then
    match op.bullet_id with
    | some i =>
      let r := pb.remove_bullet i
      (r.2, { operation := some "remove", success := r.1, bullet_id := some i,
              reasoning := reasoning,
              message := if r.1 then "Removed bullet" else "Bullet not found" })
    | none =>
      (pb, { operation := some "remove", success := false, bullet_id := none,
             reasoning := reasoning,
             message := "Error executing operation: KeyError" })
  else if op.type = some "modify" then
    match op.bullet_id with
    | some i =>
      let r := pb.modify_bullet i op.new_content false false ts
      (r.2, { operation := some "modify", success := r.1, bullet_id := some i,
              reasoning := reasoning,
              message := if r.1 then "Modified bullet" else "Bullet not found" })
    | none =>
      (pb, { operation := some "modify", success := false, bullet_id := none,
             reasoning := reasoning,
             message := "Error executing operation: KeyError" })
  else if op.type = some "mark_helpful" then
    match op.bullet_id with
    | some i =>
      let r := pb.modify_bullet i none true false ts
      (r.2, { operation := some "mark_helpful", success := r.1, bullet_id := some i,
              reasoning := reasoning,
              message := if r.1 then "Marked as helpful" else "Bullet not found" })
    | none =>
      (pb, { operation := some "mark_helpful", success := false, bullet_id := none,
             reasoning := reasoning,
             message := "Error executing operation: KeyError" })
  else if op.type = some "mark_harmful" then
    match op.bullet_id with
    | some i =>
      let r := pb.modify_bullet i none false true ts
      (r.2, { operation := some "mark_harmful", success := r.1, bullet_id := some i,
              reasoning := reasoning,
              message := if r.1 then "Marked as harmful" else "Bullet not found" })
    | none =>
      (pb, { operation := some "mark_harmful", success := false, bullet_id := none,
             reasoning := reasoning,
             message := "Error executing operation: KeyError" })
  else
    (pb, { operation := op.type, success := false, bullet_id := none,
           reasoning := reasoning,
           message := "Unknown operation type: " ++ op.type.getD "None" })

/-- `execute_operations`: fold the loop body over the batch, one clock
reading per operation, collecting one result per operation in order. -/
def execute_operations (pb : Playbook) :
    List CurOp → List String → Playbook × List OpResult
  | [], _ => (pb, [])
  | op :: rest, tss =>
    let r := executeOp pb op (tss.headD "")
    let rr := execute_operations r.1 rest tss.tail
    (rr.1, r.2 :: rr.2)

/-- The `successful_operations` aggregate computed by `run_curator`:
`sum(1 for r in execution_results if r.get("success"))`. -/
def successful_operations (rs : List OpResult) : Nat :=
  rs.foldl (fun n r => if r.success then n + 1 else n) 0

/-- The parsed duplicate-judge response used by `semantic_deduplication`. -/
structure JudgeResult where
  are_duplicates : Bool
  similarity_score : ℚ
  reasoning : Option String
deriving DecidableEq

/-- One merge record appended by `semantic_deduplication`. -/
structure MergeRec where
  kept : String
  removed : String
  reasoning : Option String
deriving DecidableEq

/-- The inner `for j, bullet2 in enumerate(bullets[i+1:], ...)` loop of
`semantic_deduplication`, for one fixed `bullet1`.  The judge is a function
of the two contents; `none` models a judge-call exception (caught, pair
skipped).  A merge executes `modify_bullet` on the keeper (helpful bump iff
the loser had helpful feedback), removes the loser, appends the merge
record, and `break`s out of the inner loop. -/
def dedupPairLoop (judge : String → String → Option JudgeResult)
    (threshold : ℚ) (ts : String) (bullet1 : PlaybookBullet) :
    List PlaybookBullet → Playbook → List String → List MergeRec →
    Playbook × List String × List MergeRec
  | [], pb, checked, merges => (pb, checked, merges)
  | bullet2 :: rest, pb, checked, merges =>
    let key := bullet1.id ++ "_" ++ bullet2.id
    if key ∈ checked then
      dedupPairLoop judge threshold ts bullet1 rest pb checked merges
    else
      let checked1 := key :: checked
      if bullet1.«section» ≠ bullet2.«section» then
        dedupPairLoop judge threshold ts bullet1 rest pb checked1 merges
      else
        match judge bullet1.content bullet2.content with
        | none => dedupPairLoop judge threshold ts bullet1 rest pb checked1 merges
        | some result =>
          if result.are_duplicates ∧ threshold ≤ result.similarity_score then
            if bullet2.get_confidence_score ≤ bullet1.get_confidence_score then
              let pb1 := (pb.modify_bullet bullet1.id none
                (decide (0 < bullet2.helpful_count)) false ts).2
              let pb2 := (pb1.remove_bullet bullet2.id).2
              (pb2, checked1,
               merges ++ [{ kept := bullet1.id, removed := bullet2.id,
                            reasoning := result.reasoning }])
            else
              let pb1 := (pb.modify_bullet bullet2.id none
                (decide (0 < bullet1.helpful_count)) false ts).2
              let pb2 := (pb1.remove_bullet bullet1.id).2
              (pb2, checked1,
               merges ++ [{ kept := bullet2.id, removed := bullet1.id,
                            reasoning := result.reasoning }])
          else
            dedupPairLoop judge threshold ts bullet1 rest pb checked1 merges

/-- The outer `for i, bullet1 in enumerate(bullets)` loop of
`semantic_deduplication`: the pair list is drawn from the frozen `bullets`
snapshot, never refreshed from the store. -/
def dedupOuter (judge : String → String → Option JudgeResult)
    (threshold : ℚ) (ts : String) :
    List PlaybookBullet → Playbook → List String → List MergeRec →
    Playbook × List MergeRec
  | [], pb, _, merges => (pb, merges)
  | bullet1 :: rest, pb, checked, merges =>
    let r := dedupPairLoop judge threshold ts bullet1 rest pb checked merges
    dedupOuter judge threshold ts rest r.1 r.2.1 r.2.2

/-- `semantic_deduplication`: snapshot `get_all_bullets()` once, return
immediately when fewer than two bullets exist, otherwise run the pairwise
scan.  Returns the mutated store and the merge-record list. -/
def semantic_deduplication (pb : Playbook)
    (judge : String → String → Option JudgeResult) (threshold : ℚ)
    (ts : String) : Playbook × List MergeRec :=
  let bullets := pb.get_all_bullets
  if bullets.length < 2 then (pb, [])
  else dedupOuter judge threshold ts bullets pb [] []

/-- A one-bullet store used by concrete executor scenarios. -/
def samplePb : Playbook :=
  { bullets := [⟨"bullet_live", "known strategy", 0, 0, "core_rules", "t0", "t0"⟩],
    version := defaultVersion }

/-- A three-operation batch: an unknown type, a well-formed add, and a
remove with its required `bullet_id` missing. -/
def sampleOps : List CurOp :=
  [{ type := some "frobnicate", content := none, «section» := none,
     bullet_id := none, new_content := none, reasoning := none },
   { type := some "add", content := some "new strategy",
     «section» := some "core_rules", bullet_id := none, new_content := none,
     reasoning := some "curator suggestion" },
   { type := some "remove", content := none, «section» := none,
     bullet_id := none, new_content := none, reasoning := none }]

/-- Nine distinct clock readings used to seed the default playbook in
concrete scenarios. -/
def seedTss : List String :=
  ["s1", "s2", "s3", "s4", "s5", "s6", "s7", "s8", "s9"]

/-- First bullet of the stale-snapshot deduplication scenario. -/
def bulA : PlaybookBullet :=
  ⟨"bullet_a", "alpha rule", 0, 0, "core_rules", "t1", "t1"⟩

/-- Second bullet of the stale-snapshot deduplication scenario. -/
def bulB : PlaybookBullet :=
  ⟨"bullet_b", "beta rule", 0, 0, "core_rules", "t2", "t2"⟩

/-- Third bullet of the stale-snapshot deduplication scenario. -/
def bulC : PlaybookBullet :=
  ⟨"bullet_c", "gamma rule", 0, 0, "core_rules", "t3", "t3"⟩

/-- A three-bullet same-section store with equal confidences. -/
def pbStale : Playbook := ⟨[bulA, bulB, bulC], defaultVersion⟩

/-- A judge that reports every pair as a duplicate with full confidence. -/
def judgeAll : String → String → Option JudgeResult :=
  fun _ _ => some ⟨true, 1, none⟩

/-- The three-bullet `core_rules` store of the stable-sort scenario:
helpful/harmful counts (9,1), (0,0), (0,0) in insertion order. -/
def pbSortScenario : Playbook :=
  { bullets :=
      [{ id := mkId "t1", content := "first rule", helpful_count := 9,
         harmful_count := 1, «section» := "core_rules",
         created_at := "t1", last_updated := "t1" },
       { id := mkId "t2", content := "second rule", helpful_count := 0,
         harmful_count := 0, «section» := "core_rules",
         created_at := "t2", last_updated := "t2" },
       { id := mkId "t3", content := "third rule", helpful_count := 0,
         harmful_count := 0, «section» := "core_rules",
         created_at := "t3", last_updated := "t3" }],
    version := defaultVersion }

/-! ### Lemmas about the stable descending sort -/

theorem orderedInsertDesc_perm (x : PlaybookBullet) (l : List PlaybookBullet) :
    List.Perm (orderedInsertDesc x l) (x :: l) := by
  induction l with
  | nil => simp [orderedInsertDesc]
  | cons y ys ih =>
    rw [orderedInsertDesc]
    by_cases hc : y.get_confidence_score ≤ x.get_confidence_score
    · rw [if_pos hc]
    · rw [if_neg hc]
      exact (List.Perm.cons y ih).trans (List.Perm.swap x y ys)

theorem sortByConfDesc_perm (l : List PlaybookBullet) :
    List.Perm (sortByConfDesc l) l := by
  induction l with
  | nil => simp [sortByConfDesc]
  | cons x xs ih =>
    exact (orderedInsertDesc_perm x (sortByConfDesc xs)).trans (List.Perm.cons x ih)

theorem mem_orderedInsertDesc {z x : PlaybookBullet} {l : List PlaybookBullet} :
    z ∈ orderedInsertDesc x l ↔ z = x ∨ z ∈ l := by
  have h := (orderedInsertDesc_perm x l).mem_iff (a := z)
  simpa using h

theorem orderedInsertDesc_pairwise (x : PlaybookBullet) (l : List PlaybookBullet)
    (h : List.Pairwise
      (fun a b => b.get_confidence_score ≤ a.get_confidence_score) l) :
    List.Pairwise (fun a b => b.get_confidence_score ≤ a.get_confidence_score)
      (orderedInsertDesc x l) := by
  induction l with
  | nil => simp [orderedInsertDesc]
  | cons y ys ih =>
    rcases List.pairwise_cons.mp h with ⟨hy, hys⟩
    rw [orderedInsertDesc]
    by_cases hc : y.get_confidence_score ≤ x.get_confidence_score
    · rw [if_pos hc]
      refine List.pairwise_cons.mpr ⟨?_, h⟩
      intro z hz
      rcases List.mem_cons.mp hz with hz | hz
      · subst hz
        exact hc
      · exact le_trans (hy z hz) hc
    · rw [if_neg hc]
      refine List.pairwise_cons.mpr ⟨?_, ih hys⟩
      intro z hz
      rcases mem_orderedInsertDesc.mp hz with hz | hz
      · subst hz
        exact le_of_lt (lt_of_not_le hc)
      · exact hy z hz

theorem sortByConfDesc_pairwise (l : List PlaybookBullet) :
    List.Pairwise (fun a b => b.get_confidence_score ≤ a.get_confidence_score)
      (sortByConfDesc l) := by
  induction l with
  | nil => simp [sortByConfDesc]
  | cons x xs ih => exact orderedInsertDesc_pairwise x _ ih

theorem filter_conf_orderedInsertDesc (c : ℚ) (x : PlaybookBullet)
    (l : List PlaybookBullet) :
    (orderedInsertDesc x l).filter (fun b => decide (b.get_confidence_score = c))
      = if x.get_confidence_score = c
        then x :: l.filter (fun b => decide (b.get_confidence_score = c))
        else l.filter (fun b => decide (b.get_confidence_score = c)) := by
  induction l with
  | nil =>
    by_cases hx : x.get_confidence_score = c
    · rw [if_pos hx]
      simp [orderedInsertDesc, List.filter, hx]
    · rw [if_neg hx]
      simp [orderedInsertDesc, List.filter, hx]
  | cons y ys ih =>
    rw [orderedInsertDesc]
    by_cases hc : y.get_confidence_score ≤ x.get_confidence_score
    · rw [if_pos hc]
      by_cases hx : x.get_confidence_score = c
      · rw [if_pos hx]
        simp [List.filter_cons, hx]
      · rw [if_neg hx]
        simp [List.filter_cons, hx]
    · rw [if_neg hc]
      have hylt : x.get_confidence_score < y.get_confidence_score :=
        lt_of_not_le hc
      by_cases hx : x.get_confidence_score = c
      · have hy : ¬ y.get_confidence_score = c := by
          intro hyc
          rw [hx] at hylt
          rw [hyc] at hylt
          exact lt_irrefl c hylt
        rw [if_pos hx]
        simp [List.filter_cons, hy, ih, hx]
      · rw [if_neg hx]
        by_cases hy : y.get_confidence_score = c
        · simp [List.filter_cons, hy, ih, hx]
        · simp [List.filter_cons, hy, ih, hx]

theorem filter_conf_sortByConfDesc (c : ℚ) (l : List PlaybookBullet) :
    (sortByConfDesc l).filter (fun b => decide (b.get_confidence_score = c))
      = l.filter (fun b => decide (b.get_confidence_score = c)) := by
  induction l with
  | nil => simp [sortByConfDesc]
  | cons x xs ih =>
    rw [sortByConfDesc, filter_conf_orderedInsertDesc, ih]
    by_cases hx : x.get_confidence_score = c
    · rw [if_pos hx]
      simp [List.filter_cons, hx]
    · rw [if_neg hx]
      simp [List.filter_cons, hx]

/-! ### C7: `get_all_bullets` ranking -/

/-- C7: for every store state, `get_all_bullets` returns all the bullets (a
permutation of the store) sorted by descending confidence, bullets of equal
confidence keeping their pre-sort relative order (stable sort); and on the
concrete three-bullet `core_rules` store with helpful/harmful counts (9,1),
(0,0), (0,0), the 0.9-confidence bullet comes first and the two
0.5-confidence bullets follow in insertion order. -/
theorem get_all_bullets_sorted_stable :
    (∀ pb : Playbook,
      List.Pairwise (fun a b => b.get_confidence_score ≤ a.get_confidence_score)
        pb.get_all_bullets ∧
      List.Perm pb.get_all_bullets pb.bullets ∧
      ∀ c : ℚ,
        pb.get_all_bullets.filter (fun b => decide (b.get_confidence_score = c))
          = pb.bullets.filter (fun b => decide (b.get_confidence_score = c))) ∧
    pbSortScenario.get_all_bullets.map (fun b => b.id)
      = [mkId "t1", mkId "t2", mkId "t3"] := by
  constructor
  · intro pb
    exact ⟨sortByConfDesc_pairwise _, sortByConfDesc_perm _,
      fun c => filter_conf_sortByConfDesc c _⟩
  · norm_num [pbSortScenario, Playbook.get_all_bullets, sortByConfDesc,
      orderedInsertDesc, PlaybookBullet.get_confidence_score]

/-! ### C10: the confidence invariant -/

/-- C10: confidence equals `helpful_count / (helpful_count + harmful_count)`
whenever that denominator is nonzero, equals exactly 1/2 when both counters
are zero, always lies in [0,1], and is a function of the two counters alone
(recomputed from them on every read, never stored in the record). -/
theorem get_confidence_score_spec (b : PlaybookBullet) :
    (b.helpful_count + b.harmful_count ≠ 0 →
      b.get_confidence_score
        = (b.helpful_count : ℚ)
            / ((b.helpful_count : ℚ) + (b.harmful_count : ℚ))) ∧
    (b.helpful_count = 0 → b.harmful_count = 0 →
      b.get_confidence_score = 1/2) ∧
    0 ≤ b.get_confidence_score ∧ b.get_confidence_score ≤ 1 ∧
    (∀ b' : PlaybookBullet, b'.helpful_count = b.helpful_count →
      b'.harmful_count = b.harmful_count →
      b'.get_confidence_score = b.get_confidence_score) := by
  refine ⟨?_, ?_, ?_, ?_, ?_⟩
  · intro h
    rw [PlaybookBullet.get_confidence_score, if_neg h]
  · intro h1 h2
    rw [PlaybookBullet.get_confidence_score, if_pos (by rw [h1, h2])]
  · rw [PlaybookBullet.get_confidence_score]
    by_cases h : b.helpful_count + b.harmful_count = 0
    · rw [if_pos h]
      norm_num
    · rw [if_neg h]
      have hpos : (0:ℚ) < (b.helpful_count : ℚ) + (b.harmful_count : ℚ) := by
        have h2 : 0 < b.helpful_count + b.harmful_count := Nat.pos_of_ne_zero h
        exact_mod_cast h2
      exact div_nonneg (by positivity) (le_of_lt hpos)
  · rw [PlaybookBullet.get_confidence_score]
    by_cases h : b.helpful_count + b.harmful_count = 0
    · rw [if_pos h]
      norm_num
    · rw [if_neg h]
      have hpos : (0:ℚ) < (b.helpful_count : ℚ) + (b.harmful_count : ℚ) := by
        have h2 : 0 < b.helpful_count + b.harmful_count := Nat.pos_of_ne_zero h
        exact_mod_cast h2
      rw [div_le_one hpos]
      exact le_add_of_nonneg_right (by positivity)
  · intro b' h1 h2
    rw [PlaybookBullet.get_confidence_score, PlaybookBullet.get_confidence_score,
      h1, h2]

/-- Witness for C10 at a concrete bullet with counts (9,1). -/
theorem get_confidence_score_spec_witness :
    ({ id := "i", content := "c", helpful_count := 9, harmful_count := 1,
       «section» := "s", created_at := "t", last_updated := "t" }
        : PlaybookBullet).get_confidence_score = 9/10 := by
  have h := (get_confidence_score_spec
    { id := "i", content := "c", helpful_count := 9, harmful_count := 1,
      «section» := "s", created_at := "t", last_updated := "t" }).1
    (by decide)
  rw [h]
  norm_num

/-! ### C9: `remove_bullet` -/

theorem length_filter_id_lt_iff (i : String) (l : List PlaybookBullet) :
    (l.filter (fun b => decide (b.id ≠ i))).length < l.length ↔ ∃ b ∈ l, b.id = i := by
  induction l with
  | nil => simp
  | cons b l ih =>
    rw [List.filter_cons]
    by_cases hb : b.id = i
    · rw [if_neg (by simp [hb])]
      constructor
      · intro _
        exact ⟨b, List.mem_cons_self b l, hb⟩
      · intro _
        exact Nat.lt_succ_of_le (List.length_filter_le _ _)
    · rw [if_pos (by simp [hb])]
      simp only [List.length_cons]
      rw [Nat.add_lt_add_iff_right]
      rw [ih]
      constructor
      · intro h
        rcases h with ⟨x, hx, hxi⟩
        exact ⟨x, List.mem_cons_of_mem b hx, hxi⟩
      · intro h
        rcases h with ⟨x, hx, hxi⟩
        rcases List.mem_cons.mp hx with hx | hx
        · exact absurd (hx ▸ hxi) hb
        · exact ⟨x, hx, hxi⟩

theorem remove_bullet_succeeds_iff (pb : Playbook) (i : String) :
    (pb.remove_bullet i).1 = true ↔ ∃ b ∈ pb.bullets, b.id = i := by
  have key := length_filter_id_lt_iff i pb.bullets
  rw [Playbook.remove_bullet]
  simp only [ne_eq, decide_not] at key ⊢
  by_cases hc : (List.filter (fun b => !decide (b.id = i)) pb.bullets).length
      < pb.bullets.length
  · rw [if_pos hc]
    exact iff_of_true rfl (key.mp hc)
  · rw [if_neg hc]
    exact iff_of_false (by simp) (fun hex => hc (key.mpr hex))

theorem remove_bullet_bullets_eq (pb : Playbook) (i : String) :
    (pb.remove_bullet i).2.bullets = pb.bullets.filter (fun b => decide (b.id ≠ i)) := by
  rw [Playbook.remove_bullet]
  simp only [ne_eq, decide_not]
  by_cases hc : (List.filter (fun b => !decide (b.id = i)) pb.bullets).length
      < pb.bullets.length
  · rw [if_pos hc]
  · rw [if_neg hc]
    have hle : (List.filter (fun b => !decide (b.id = i)) pb.bullets).length
        ≤ pb.bullets.length := List.length_filter_le _ _
    exact ((List.filter_sublist _).eq_of_length
      (le_antisymm hle (le_of_not_lt hc))).symm

/-- C9: `remove_bullet` returns true iff a bullet with that exact id exists;
on success the store keeps exactly the bullets with a different id (removal
is by id, never by content); on failure the store is untouched; and a second
removal with the same id always returns false. -/
theorem remove_bullet_spec (pb : Playbook) (i : String) :
    ((pb.remove_bullet i).1 = true ↔ ∃ b ∈ pb.bullets, b.id = i) ∧
    ((pb.remove_bullet i).1 = false → (pb.remove_bullet i).2 = pb) ∧
    ((pb.remove_bullet i).2.bullets = pb.bullets.filter (fun b => decide (b.id ≠ i))) ∧
    (((pb.remove_bullet i).2.remove_bullet i).1 = false) := by
  refine ⟨remove_bullet_succeeds_iff pb i, ?_, remove_bullet_bullets_eq pb i, ?_⟩
  · rw [Playbook.remove_bullet]
    simp only [ne_eq, decide_not]
    by_cases hc : (List.filter (fun b => !decide (b.id = i)) pb.bullets).length
        < pb.bullets.length
    · rw [if_pos hc]
      intro h
      exact absurd h (by simp)
    · rw [if_neg hc]
      intro _
      rfl
  · have hnone : ¬ ∃ b ∈ (pb.remove_bullet i).2.bullets, b.id = i := by
      rw [remove_bullet_bullets_eq pb i]
      intro ⟨b, hb, hbi⟩
      have := (List.mem_filter.mp hb).2
      simp only [ne_eq, decide_eq_true_eq] at this
      exact this hbi
    cases h : ((pb.remove_bullet i).2.remove_bullet i).1 with
    | false => rfl
    | true =>
      exact absurd ((remove_bullet_succeeds_iff _ i).mp h) hnone

/-- Witness for C9: on a one-bullet store, the first removal succeeds and the
second removal of the same id fails. -/
theorem remove_bullet_spec_witness :
    ((⟨[⟨"bullet_x", "c", 0, 0, "s", "t", "t"⟩], "1.1"⟩ : Playbook).remove_bullet
        "bullet_x").1 = true ∧
    (((⟨[⟨"bullet_x", "c", 0, 0, "s", "t", "t"⟩], "1.1"⟩ : Playbook).remove_bullet
        "bullet_x").2.remove_bullet "bullet_x").1 = false := by
  refine ⟨?_, (remove_bullet_spec ⟨[⟨"bullet_x", "c", 0, 0, "s", "t", "t"⟩], "1.1"⟩
    "bullet_x").2.2.2⟩
  exact (remove_bullet_spec ⟨[⟨"bullet_x", "c", 0, 0, "s", "t", "t"⟩], "1.1"⟩
    "bullet_x").1.mpr ⟨_, List.mem_cons_self _ _, rfl⟩

/-! ### C6: persistence round-trip -/

theorem from_dict_to_dict (b : PlaybookBullet) (ts : String) :
    PlaybookBullet.from_dict b.to_dict ts = b := rfl

/-- C6: `save` followed by `load` reproduces an identical bullet set — every
bullet's id, content, helpful_count, harmful_count, section, created_at and
last_updated are preserved, as is the version tag; only the store-level
`last_updated` stamp of the durable artifact is fresh. -/
theorem save_load_roundtrip (pb : Playbook) (ts ts2 : String) :
    (Playbook.load (pb.save ts) ts2).bullets = pb.bullets ∧
    (Playbook.load (pb.save ts) ts2).version = pb.version := by
  constructor
  · show (pb.bullets.map PlaybookBullet.to_dict).map
      (fun bd => PlaybookBullet.from_dict bd ts2) = pb.bullets
    rw [List.map_map]
    have h : ((fun bd => PlaybookBullet.from_dict bd ts2) ∘ PlaybookBullet.to_dict)
        = fun b : PlaybookBullet => b := by
      funext b
      exact from_dict_to_dict b ts2
    rw [h]
    exact List.map_id pb.bullets
  · rfl

/-! ### C8: `modify_bullet` -/

theorem applyModifications_fields (b : PlaybookBullet) (nc : Option String)
    (mh mharm : Bool) (ts : String) :
    (applyModifications b nc mh mharm ts).id = b.id ∧
    (applyModifications b nc mh mharm ts).content
      = (if nc.getD "" ≠ "" then nc.getD "" else b.content) ∧
    (applyModifications b nc mh mharm ts).helpful_count
      = b.helpful_count + (if mh then 1 else 0) ∧
    (applyModifications b nc mh mharm ts).harmful_count
      = b.harmful_count + (if mharm then 1 else 0) ∧
    (applyModifications b nc mh mharm ts).«section» = b.«section» ∧
    (applyModifications b nc mh mharm ts).created_at = b.created_at := by
  by_cases hnc : nc.getD "" ≠ "" <;> cases mh <;> cases mharm <;>
    simp [applyModifications, hnc, PlaybookBullet.mark_helpful,
      PlaybookBullet.mark_harmful]

theorem modifyFirst_not_found (i : String) (nc : Option String) (mh mharm : Bool)
    (ts : String) (l : List PlaybookBullet) (h : ∀ b ∈ l, b.id ≠ i) :
    modifyFirst i nc mh mharm ts l = (false, l) := by
  induction l with
  | nil => rfl
  | cons b rest ih =>
    rw [modifyFirst]
    rw [if_neg (h b (List.mem_cons_self b rest))]
    rw [ih (fun x hx => h x (List.mem_cons_of_mem b hx))]

theorem modifyFirst_found (i : String) (nc : Option String) (mh mharm : Bool)
    (ts : String) (pre : List PlaybookBullet) (b : PlaybookBullet)
    (post : List PlaybookBullet) (hpre : ∀ x ∈ pre, x.id ≠ i) (hb : b.id = i) :
    modifyFirst i nc mh mharm ts (pre ++ b :: post)
      = (true, pre ++ applyModifications b nc mh mharm ts :: post) := by
  induction pre with
  | nil =>
    rw [List.nil_append, modifyFirst, if_pos hb, List.nil_append]
  | cons x xs ih =>
    rw [List.cons_append, modifyFirst]
    rw [if_neg (hpre x (List.mem_cons_self x xs))]
    rw [ih (fun y hy => hpre y (List.mem_cons_of_mem x hy))]
    rfl

theorem modifyFirst_fst_iff (i : String) (nc : Option String) (mh mharm : Bool)
    (ts : String) (l : List PlaybookBullet) :
    (modifyFirst i nc mh mharm ts l).1 = true ↔ ∃ b ∈ l, b.id = i := by
  induction l with
  | nil => simp [modifyFirst]
  | cons b rest ih =>
    rw [modifyFirst]
    by_cases hb : b.id = i
    · rw [if_pos hb]
      exact iff_of_true rfl ⟨b, List.mem_cons_self b rest, hb⟩
    · rw [if_neg hb]
      constructor
      · intro h
        rcases ih.mp h with ⟨x, hx, hxi⟩
        exact ⟨x, List.mem_cons_of_mem b hx, hxi⟩
      · intro h
        rcases h with ⟨x, hx, hxi⟩
        rcases List.mem_cons.mp hx with hx | hx
        · exact absurd (hx ▸ hxi) hb
        · exact ih.mpr ⟨x, hx, hxi⟩

/-- C8: `modify_bullet` succeeds iff a bullet with the given id exists; when
one exists, the first match is replaced in place by the composition of, in
order, content replacement (only for a non-empty `new_content`), the helpful
increment, and the harmful increment; when absent it returns false with no
effect on the store or its statistics. -/
theorem modify_bullet_spec (pb : Playbook) (i : String) (nc : Option String)
    (mh mharm : Bool) (ts : String) :
    ((pb.modify_bullet i nc mh mharm ts).1 = true ↔ ∃ b ∈ pb.bullets, b.id = i) ∧
    ((∀ b ∈ pb.bullets, b.id ≠ i) →
      (pb.modify_bullet i nc mh mharm ts).2 = pb ∧
      (pb.modify_bullet i nc mh mharm ts).2.get_statistics = pb.get_statistics) ∧
    (∀ pre b post, pb.bullets = pre ++ b :: post → (∀ x ∈ pre, x.id ≠ i) →
      b.id = i →
      (pb.modify_bullet i nc mh mharm ts).2.bullets
        = pre ++ applyModifications b nc mh mharm ts :: post) ∧
    (∀ b : PlaybookBullet,
      (applyModifications b nc mh mharm ts).id = b.id ∧
      (applyModifications b nc mh mharm ts).content
        = (if nc.getD "" ≠ "" then nc.getD "" else b.content) ∧
      (applyModifications b nc mh mharm ts).helpful_count
        = b.helpful_count + (if mh then 1 else 0) ∧
      (applyModifications b nc mh mharm ts).harmful_count
        = b.harmful_count + (if mharm then 1 else 0)) := by
  refine ⟨?_, ?_, ?_, ?_⟩
  · exact modifyFirst_fst_iff i nc mh mharm ts pb.bullets
  · intro h
    have heq : (pb.modify_bullet i nc mh mharm ts).2 = pb := by
      show ({ pb with bullets := (modifyFirst i nc mh mharm ts pb.bullets).2 }
        : Playbook) = pb
      rw [modifyFirst_not_found i nc mh mharm ts pb.bullets h]
    exact ⟨heq, by rw [heq]⟩
  · intro pre b post hsplit hpre hb
    show (modifyFirst i nc mh mharm ts pb.bullets).2 = _
    rw [hsplit, modifyFirst_found i nc mh mharm ts pre b post hpre hb]
  · intro b
    have h := applyModifications_fields b nc mh mharm ts
    exact ⟨h.1, h.2.1, h.2.2.1, h.2.2.2.1⟩

/-- Witness for C8: marking a one-bullet store helpful increments the
counter in place; modifying a missing id leaves the store untouched. -/
theorem modify_bullet_spec_witness :
    ((⟨[⟨"bullet_x", "c", 0, 0, "s", "t", "t"⟩], "1.1"⟩ : Playbook).modify_bullet
        "bullet_x" none true false "t2").2.bullets
      = [⟨"bullet_x", "c", 1, 0, "s", "t", "t2"⟩] ∧
    ((⟨[⟨"bullet_x", "c", 0, 0, "s", "t", "t"⟩], "1.1"⟩ : Playbook).modify_bullet
        "bullet_y" none true false "t2").2
      = ⟨[⟨"bullet_x", "c", 0, 0, "s", "t", "t"⟩], "1.1"⟩ := by
  constructor
  · have h := (modify_bullet_spec ⟨[⟨"bullet_x", "c", 0, 0, "s", "t", "t"⟩], "1.1"⟩
      "bullet_x" none true false "t2").2.2.1 [] ⟨"bullet_x", "c", 0, 0, "s", "t", "t"⟩ []
      rfl (by simp) rfl
    rw [h]
    rfl
  · exact ((modify_bullet_spec ⟨[⟨"bullet_x", "c", 0, 0, "s", "t", "t"⟩], "1.1"⟩
      "bullet_y" none true false "t2").2.1 (by decide)).1

/-! ### C5: `to_prompt_text` retrieval -/

theorem pairwise_head_max (m : PlaybookBullet) (rest : List PlaybookBullet)
    (h : List.Pairwise (fun a b => b.get_confidence_score ≤ a.get_confidence_score)
      (m :: rest)) :
    ∀ b ∈ m :: rest, b.get_confidence_score ≤ m.get_confidence_score := by
  intro b hb
  rcases List.mem_cons.mp hb with hb | hb
  · subst hb
    exact le_refl _
  · exact (List.pairwise_cons.mp h).1 b hb

/-- Counterexample to C5 as stated: `top_k = 0` is given, yet the output is
not truncated to zero bullets — Python treats a zero `top_k` as absent, so
the whole ranked list survives. -/
theorem to_prompt_text_topk_zero_cex :
    selectedBullets (⟨[⟨"b1", "c", 0, 0, "s1", "t", "t"⟩], "1.1"⟩ : Playbook)
        none (some 0)
      ≠ (sortByConfDesc
          (⟨[⟨"b1", "c", 0, 0, "s1", "t", "t"⟩], "1.1"⟩ : Playbook).bullets).take 0 := by
  decide

/-- C5 (amended): `to_prompt_text` renders the section grouping (ordered by
first appearance in the ranked, truncated list) of the selection pipeline
filter-then-sort-then-truncate, where truncation applies when `topK` is
given and non-zero; with `sections = ["questioning_strategy"]` and
`top_k = 1` on a store with a non-empty `questioning_strategy` section, the
selection is exactly one bullet — a highest-confidence bullet of that
section — and it forms the only group. -/
theorem to_prompt_text_spec (pb : Playbook) :
    (∀ sections top_k,
      pb.to_prompt_text sections top_k
        = renderPrompt (groupBySection (selectedBullets pb sections top_k))) ∧
    (∀ secs k, secs ≠ ([] : List String) → k ≠ 0 →
      selectedBullets pb (some secs) (some k)
        = (sortByConfDesc (pb.bullets.filter
            (fun b => decide (b.«section» ∈ secs)))).take k) ∧
    ((∃ b ∈ pb.bullets, b.«section» = "questioning_strategy") →
      ∃ m, selectedBullets pb (some ["questioning_strategy"]) (some 1) = [m] ∧
        m ∈ pb.bullets ∧ m.«section» = "questioning_strategy" ∧
        (∀ b ∈ pb.bullets, b.«section» = "questioning_strategy" →
          b.get_confidence_score ≤ m.get_confidence_score) ∧
        groupBySection (selectedBullets pb (some ["questioning_strategy"]) (some 1))
          = [("questioning_strategy", [m])]) := by
  have hsel : ∀ secs k, secs ≠ ([] : List String) → k ≠ 0 →
      selectedBullets pb (some secs) (some k)
        = (sortByConfDesc (pb.bullets.filter
            (fun b => decide (b.«section» ∈ secs)))).take k := by
    intro secs k h1 h2
    rw [selectedBullets]
    simp only [Option.getD_some]
    rw [if_pos h1, if_pos h2]
  refine ⟨fun _ _ => rfl, hsel, ?_⟩
  intro hex
  rcases hex with ⟨b0, hb0, hsec0⟩
  have hb0F : b0 ∈ pb.bullets.filter
      (fun b => decide (b.«section» ∈ (["questioning_strategy"] : List String))) := by
    rw [List.mem_filter]
    exact ⟨hb0, by simp [hsec0]⟩
  have hmemF : ∀ x, x ∈ sortByConfDesc (pb.bullets.filter
        (fun b => decide (b.«section» ∈ (["questioning_strategy"] : List String))))
      ↔ x ∈ pb.bullets.filter
        (fun b => decide (b.«section» ∈ (["questioning_strategy"] : List String))) :=
    fun x => (sortByConfDesc_perm _).mem_iff
  cases hS : sortByConfDesc (pb.bullets.filter
      (fun b => decide (b.«section» ∈ (["questioning_strategy"] : List String)))) with
  | nil =>
    rw [hS] at hmemF
    exact absurd ((hmemF b0).mpr hb0F) (List.not_mem_nil b0)
  | cons m rest =>
    have hsel1 : selectedBullets pb (some ["questioning_strategy"]) (some 1) = [m] := by
      rw [hsel ["questioning_strategy"] 1 (by simp) (by simp), hS]
      rfl
    have hmF : m ∈ pb.bullets.filter
        (fun b => decide (b.«section» ∈ (["questioning_strategy"] : List String))) := by
      rw [← hmemF m, hS]
      exact List.mem_cons_self m rest
    have hmb : m ∈ pb.bullets := (List.mem_filter.mp hmF).1
    have hmsec : m.«section» = "questioning_strategy" := by
      have h := (List.mem_filter.mp hmF).2
      simpa using h
    refine ⟨m, hsel1, hmb, hmsec, ?_, ?_⟩
    · intro b hb hbsec
      have hbF : b ∈ pb.bullets.filter
          (fun b => decide (b.«section» ∈ (["questioning_strategy"] : List String))) := by
        rw [List.mem_filter]
        exact ⟨hb, by simp [hbsec]⟩
      have hpw := sortByConfDesc_pairwise (pb.bullets.filter
        (fun b => decide (b.«section» ∈ (["questioning_strategy"] : List String))))
      rw [hS] at hpw
      refine pairwise_head_max m rest hpw b ?_
      rw [← hS, hmemF b]
      exact hbF
    · rw [hsel1]
      simp [groupBySection, collectSections, hmsec]

/-- Witness for C5 on a one-bullet `questioning_strategy` store. -/
theorem to_prompt_text_spec_witness :
    ∃ m, selectedBullets
        (⟨[⟨"bullet_q", "ask", 0, 0, "questioning_strategy", "t", "t"⟩], "1.1"⟩
          : Playbook) (some ["questioning_strategy"]) (some 1) = [m] ∧
      m ∈ (⟨[⟨"bullet_q", "ask", 0, 0, "questioning_strategy", "t", "t"⟩], "1.1"⟩
          : Playbook).bullets ∧
      m.«section» = "questioning_strategy" ∧
      (∀ b ∈ (⟨[⟨"bullet_q", "ask", 0, 0, "questioning_strategy", "t", "t"⟩], "1.1"⟩
          : Playbook).bullets, b.«section» = "questioning_strategy" →
        b.get_confidence_score ≤ m.get_confidence_score) ∧
      groupBySection (selectedBullets
          (⟨[⟨"bullet_q", "ask", 0, 0, "questioning_strategy", "t", "t"⟩], "1.1"⟩
            : Playbook) (some ["questioning_strategy"]) (some 1))
        = [("questioning_strategy", [m])] :=
  (to_prompt_text_spec
    ⟨[⟨"bullet_q", "ask", 0, 0, "questioning_strategy", "t", "t"⟩], "1.1"⟩).2.2
    ⟨⟨"bullet_q", "ask", 0, 0, "questioning_strategy", "t", "t"⟩,
      List.mem_cons_self _ _, rfl⟩

/-! ### C4: the operation executor -/

theorem executeOp_unknown (pb : Playbook) (op : CurOp) (ts : String)
    (h : op.type ∉ ([some "add", some "remove", some "modify",
      some "mark_helpful", some "mark_harmful"] : List (Option String))) :
    (executeOp pb op ts).2.success = false ∧
    (executeOp pb op ts).2.message
      = "Unknown operation type: " ++ op.type.getD "None" ∧
    (executeOp pb op ts).1 = pb := by
  simp only [List.mem_cons, List.not_mem_nil, or_false, not_or] at h
  obtain ⟨h1, h2, h3, h4, h5⟩ := h
  rw [executeOp, if_neg h1, if_neg h2, if_neg h3, if_neg h4, if_neg h5]
  exact ⟨rfl, rfl, rfl⟩

theorem executeOp_add_missing (pb : Playbook) (op : CurOp) (ts : String)
    (h : op.type = some "add")
    (hm : op.content = none ∨ op.«section» = none) :
    (executeOp pb op ts).2.success = false ∧
    (executeOp pb op ts).2.message = "Error executing operation: KeyError" ∧
    (executeOp pb op ts).1 = pb := by
  rw [executeOp, if_pos h]
  rcases hm with hm | hm
  · rw [hm]
    cases hs : op.«section» <;> exact ⟨rfl, rfl, rfl⟩
  · rw [hm]
    cases hc : op.content <;> exact ⟨rfl, rfl, rfl⟩

theorem executeOp_missing_bullet_id (pb : Playbook) (op : CurOp) (ts : String)
    (h : op.type = some "remove" ∨ op.type = some "modify" ∨
      op.type = some "mark_helpful" ∨ op.type = some "mark_harmful")
    (hb : op.bullet_id = none) :
    (executeOp pb op ts).2.success = false ∧
    (executeOp pb op ts).2.message = "Error executing operation: KeyError" ∧
    (executeOp pb op ts).1 = pb := by
  rcases h with h | h | h | h
  · rw [executeOp, if_neg (by simp [h]), if_pos h, hb]
    exact ⟨rfl, rfl, rfl⟩
  · rw [executeOp, if_neg (by simp [h]), if_neg (by simp [h]), if_pos h, hb]
    exact ⟨rfl, rfl, rfl⟩
  · rw [executeOp, if_neg (by simp [h]), if_neg (by simp [h]),
      if_neg (by simp [h]), if_pos h, hb]
    exact ⟨rfl, rfl, rfl⟩
  · rw [executeOp, if_neg (by simp [h]), if_neg (by simp [h]),
      if_neg (by simp [h]), if_neg (by simp [h]), if_pos h, hb]
    exact ⟨rfl, rfl, rfl⟩

theorem execute_operations_length (pb : Playbook) (ops : List CurOp)
    (tss : List String) :
    (execute_operations pb ops tss).2.length = ops.length := by
  induction ops generalizing pb tss with
  | nil => rfl
  | cons op rest ih =>
    simp only [execute_operations, List.length_cons]
    rw [ih]

theorem successful_operations_foldl (rs : List OpResult) (n : Nat) :
    rs.foldl (fun n r => if r.success then n + 1 else n) n
      = n + (rs.filter (fun r => r.success)).length := by
  induction rs generalizing n with
  | nil => simp
  | cons r rest ih =>
    rw [List.foldl_cons, List.filter_cons]
    by_cases hr : r.success = true
    · rw [if_pos hr, if_pos hr, ih, List.length_cons]
      omega
    · rw [if_neg hr, if_neg hr, ih]

theorem execute_operations_append (pb : Playbook) (ops1 ops2 : List CurOp)
    (tss : List String) :
    execute_operations pb (ops1 ++ ops2) tss
      = ((execute_operations (execute_operations pb ops1 tss).1 ops2
            (tss.drop ops1.length)).1,
         (execute_operations pb ops1 tss).2
           ++ (execute_operations (execute_operations pb ops1 tss).1 ops2
               (tss.drop ops1.length)).2) := by
  induction ops1 generalizing pb tss with
  | nil => simp [execute_operations]
  | cons op rest ih =>
    simp only [List.cons_append, execute_operations, List.length_cons,
      List.append_eq]
    rw [ih (executeOp pb op (tss.headD "")).1 tss.tail]
    have hd : tss.drop (rest.length + 1) = tss.tail.drop rest.length := by
      rw [← List.drop_one, List.drop_drop, Nat.add_comm]
    rw [hd]

theorem execute_operations_getD (pb : Playbook) (ops : List CurOp)
    (tss : List String) (i : Nat) (hi : i < ops.length) :
    ∃ pb' ts', (execute_operations pb ops tss).2.getD i defaultOpResult
      = (executeOp pb' (ops.getD i defaultCurOp) ts').2 := by
  induction ops generalizing pb tss i with
  | nil => exact absurd hi (by simp)
  | cons op rest ih =>
    cases i with
    | zero => exact ⟨pb, tss.headD "", rfl⟩
    | succ n =>
      have hn : n < rest.length := Nat.lt_of_succ_lt_succ hi
      obtain ⟨pb', ts', h⟩ := ih (executeOp pb op (tss.headD "")).1 tss.tail n hn
      exact ⟨pb', ts', h⟩

/-- C4: the executor produces exactly one result per operation, in order
(batches compose by appending result lists); an unknown operation type, an
add with a missing required field, or a remove/modify/mark with a missing
`bullet_id` yields a failed result with a descriptive message and leaves the
batch running; and `run_curator`'s `successful_operations` aggregate equals
the number of results with `success = true`. -/
theorem execute_operations_spec (pb : Playbook) (ops : List CurOp)
    (tss : List String) :
    ((execute_operations pb ops tss).2.length = ops.length) ∧
    (successful_operations (execute_operations pb ops tss).2
      = ((execute_operations pb ops tss).2.filter (fun r => r.success)).length) ∧
    (∀ ops2, execute_operations pb (ops ++ ops2) tss
      = ((execute_operations (execute_operations pb ops tss).1 ops2
            (tss.drop ops.length)).1,
         (execute_operations pb ops tss).2
           ++ (execute_operations (execute_operations pb ops tss).1 ops2
               (tss.drop ops.length)).2)) ∧
    (∀ i, i < ops.length →
      ((ops.getD i defaultCurOp).type ∉ ([some "add", some "remove",
          some "modify", some "mark_helpful", some "mark_harmful"]
            : List (Option String)) →
        ((execute_operations pb ops tss).2.getD i defaultOpResult).success = false ∧
        ((execute_operations pb ops tss).2.getD i defaultOpResult).message
          = "Unknown operation type: " ++ ((ops.getD i defaultCurOp).type.getD "None")) ∧
      ((ops.getD i defaultCurOp).type = some "add" →
        ((ops.getD i defaultCurOp).content = none ∨
          (ops.getD i defaultCurOp).«section» = none) →
        ((execute_operations pb ops tss).2.getD i defaultOpResult).success = false ∧
        ((execute_operations pb ops tss).2.getD i defaultOpResult).message
          = "Error executing operation: KeyError") ∧
      (((ops.getD i defaultCurOp).type = some "remove" ∨
          (ops.getD i defaultCurOp).type = some "modify" ∨
          (ops.getD i defaultCurOp).type = some "mark_helpful" ∨
          (ops.getD i defaultCurOp).type = some "mark_harmful") →
        (ops.getD i defaultCurOp).bullet_id = none →
        ((execute_operations pb ops tss).2.getD i defaultOpResult).success = false ∧
        ((execute_operations pb ops tss).2.getD i defaultOpResult).message
          = "Error executing operation: KeyError")) := by
  refine ⟨execute_operations_length pb ops tss, ?_, ?_, ?_⟩
  · rw [successful_operations, successful_operations_foldl]
    exact Nat.zero_add _
  · intro ops2
    exact execute_operations_append pb ops ops2 tss
  · intro i hi
    obtain ⟨pb', ts', h⟩ := execute_operations_getD pb ops tss i hi
    rw [h]
    refine ⟨?_, ?_, ?_⟩
    · intro hu
      have hh := executeOp_unknown pb' (ops.getD i defaultCurOp) ts' hu
      exact ⟨hh.1, hh.2.1⟩
    · intro ht hm
      have hh := executeOp_add_missing pb' (ops.getD i defaultCurOp) ts' ht hm
      exact ⟨hh.1, hh.2.1⟩
    · intro ht hb
      have hh := executeOp_missing_bullet_id pb' (ops.getD i defaultCurOp) ts' ht hb
      exact ⟨hh.1, hh.2.1⟩

/-- Witness for C4 on the concrete three-operation batch: one result per
operation, the unknown-type and missing-field operations fail, the
well-formed add in between still succeeds. -/
theorem execute_operations_spec_witness :
    (execute_operations samplePb sampleOps ["T1", "T2", "T3"]).2.length = 3 ∧
    ((execute_operations samplePb sampleOps ["T1", "T2", "T3"]).2.getD 0
      defaultOpResult).success = false ∧
    ((execute_operations samplePb sampleOps ["T1", "T2", "T3"]).2.getD 2
      defaultOpResult).success = false ∧
    ((execute_operations samplePb sampleOps ["T1", "T2", "T3"]).2.getD 1
      defaultOpResult).success = true := by
  have h := execute_operations_spec samplePb sampleOps ["T1", "T2", "T3"]
  refine ⟨h.1, ?_, ?_, by decide⟩
  · exact ((h.2.2.2 0 (by decide)).1 (by decide)).1
  · exact ((h.2.2.2 2 (by decide)).2.2 (by decide) (by decide)).1

/-! ### C2 and C3: the deduplication engine -/

theorem applyModifications_none_mark (b : PlaybookBullet) (P : Prop)
    [Decidable P] (ts : String) :
    applyModifications b none (decide P) false ts
      = if P then b.mark_helpful ts else b := by
  by_cases h : P <;> simp [applyModifications, h]

theorem dedupPairLoop_merge_fst (judge : String → String → Option JudgeResult)
    (threshold : ℚ) (ts : String) (b1 b2 : PlaybookBullet)
    (rest : List PlaybookBullet) (pb : Playbook) (checked : List String)
    (merges : List MergeRec) (r : JudgeResult)
    (hkey : (b1.id ++ "_" ++ b2.id) ∉ checked)
    (hsec : b1.«section» = b2.«section»)
    (hj : judge b1.content b2.content = some r)
    (hdup : r.are_duplicates = true) (hth : threshold ≤ r.similarity_score)
    (hconf : b2.get_confidence_score ≤ b1.get_confidence_score) :
    dedupPairLoop judge threshold ts b1 (b2 :: rest) pb checked merges
      = (((pb.modify_bullet b1.id none (decide (0 < b2.helpful_count))
            false ts).2.remove_bullet b2.id).2,
         (b1.id ++ "_" ++ b2.id) :: checked,
         merges ++ [⟨b1.id, b2.id, r.reasoning⟩]) := by
  rw [dedupPairLoop, if_neg hkey, if_neg (by simp [hsec]), hj]
  dsimp only
  rw [if_pos ⟨hdup, hth⟩, if_pos hconf]

theorem dedupPairLoop_merge_snd (judge : String → String → Option JudgeResult)
    (threshold : ℚ) (ts : String) (b1 b2 : PlaybookBullet)
    (rest : List PlaybookBullet) (pb : Playbook) (checked : List String)
    (merges : List MergeRec) (r : JudgeResult)
    (hkey : (b1.id ++ "_" ++ b2.id) ∉ checked)
    (hsec : b1.«section» = b2.«section»)
    (hj : judge b1.content b2.content = some r)
    (hdup : r.are_duplicates = true) (hth : threshold ≤ r.similarity_score)
    (hconf : ¬ b2.get_confidence_score ≤ b1.get_confidence_score) :
    dedupPairLoop judge threshold ts b1 (b2 :: rest) pb checked merges
      = (((pb.modify_bullet b2.id none (decide (0 < b1.helpful_count))
            false ts).2.remove_bullet b1.id).2,
         (b1.id ++ "_" ++ b2.id) :: checked,
         merges ++ [⟨b2.id, b1.id, r.reasoning⟩]) := by
  rw [dedupPairLoop, if_neg hkey, if_neg (by simp [hsec]), hj]
  dsimp only
  rw [if_pos ⟨hdup, hth⟩, if_neg hconf]

/-- C2: on a two-bullet same-section store whose judge reports them
duplicates at or above the threshold (in either presentation order),
`semantic_deduplication` merges them so that exactly one survives: the
bullet with the higher-or-equal confidence is kept (a tie keeps the first
bullet of the evaluated pair), the loser is removed through the remove
primitive, the keeper is marked helpful iff the loser's `helpful_count` is
positive, and the single merge record names the kept and removed ids
correctly. -/
theorem semantic_deduplication_pair (A B : PlaybookBullet) (v ts : String)
    (judge : String → String → Option JudgeResult) (threshold : ℚ)
    (hid : A.id ≠ B.id) (hsec : A.«section» = B.«section»)
    (r1 r2 : JudgeResult)
    (hj1 : judge A.content B.content = some r1)
    (hj2 : judge B.content A.content = some r2)
    (hdup1 : r1.are_duplicates = true) (hth1 : threshold ≤ r1.similarity_score)
    (hdup2 : r2.are_duplicates = true) (hth2 : threshold ≤ r2.similarity_score) :
    (B.get_confidence_score ≤ A.get_confidence_score →
      (semantic_deduplication ⟨[A, B], v⟩ judge threshold ts).2
        = [⟨A.id, B.id, r1.reasoning⟩] ∧
      (semantic_deduplication ⟨[A, B], v⟩ judge threshold ts).1.bullets
        = [if 0 < B.helpful_count then A.mark_helpful ts else A]) ∧
    (¬ B.get_confidence_score ≤ A.get_confidence_score →
      (semantic_deduplication ⟨[A, B], v⟩ judge threshold ts).2
        = [⟨B.id, A.id, r2.reasoning⟩] ∧
      (semantic_deduplication ⟨[A, B], v⟩ judge threshold ts).1.bullets
        = [if 0 < A.helpful_count then B.mark_helpful ts else B]) := by
  constructor
  · intro hc
    have hsort : (⟨[A, B], v⟩ : Playbook).get_all_bullets = [A, B] := by
      show sortByConfDesc [A, B] = [A, B]
      simp [sortByConfDesc, orderedInsertDesc, hc]
    rw [semantic_deduplication, hsort]
    rw [if_neg (by simp)]
    rw [dedupOuter]
    rw [dedupPairLoop_merge_fst judge threshold ts A B [] ⟨[A, B], v⟩ [] [] r1
      (List.not_mem_nil _) hsec hj1 hdup1 hth1 hc]
    rw [dedupOuter, dedupPairLoop, dedupOuter]
    have hmod : ((⟨[A, B], v⟩ : Playbook).modify_bullet A.id none
        (decide (0 < B.helpful_count)) false ts).2.bullets
        = [applyModifications A none (decide (0 < B.helpful_count)) false ts, B] := by
      show (modifyFirst A.id none (decide (0 < B.helpful_count)) false ts [A, B]).2 = _
      rw [modifyFirst, if_pos rfl]
    constructor
    · simp
    · show (_ : Playbook × List MergeRec).1.bullets = _
      rw [remove_bullet_bullets_eq, hmod]
      have hAid : (applyModifications A none (decide (0 < B.helpful_count))
          false ts).id = A.id :=
        (applyModifications_fields A none (decide (0 < B.helpful_count)) false ts).1
      rw [List.filter_cons, List.filter_cons, List.filter_nil]
      rw [if_pos (by simp [hAid, hid]), if_neg (by simp)]
      rw [applyModifications_none_mark]
  · intro hc
    have hc' : A.get_confidence_score ≤ B.get_confidence_score :=
      le_of_lt (lt_of_not_le hc)
    have hsort : (⟨[A, B], v⟩ : Playbook).get_all_bullets = [B, A] := by
      show sortByConfDesc [A, B] = [B, A]
      simp [sortByConfDesc, orderedInsertDesc, hc]
    rw [semantic_deduplication, hsort]
    rw [if_neg (by simp)]
    rw [dedupOuter]
    rw [dedupPairLoop_merge_fst judge threshold ts B A [] ⟨[A, B], v⟩ [] [] r2
      (List.not_mem_nil _) hsec.symm hj2 hdup2 hth2 hc']
    rw [dedupOuter, dedupPairLoop, dedupOuter]
    have hmod : ((⟨[A, B], v⟩ : Playbook).modify_bullet B.id none
        (decide (0 < A.helpful_count)) false ts).2.bullets
        = [A, applyModifications B none (decide (0 < A.helpful_count)) false ts] := by
      show (modifyFirst B.id none (decide (0 < A.helpful_count)) false ts [A, B]).2 = _
      rw [modifyFirst, if_neg hid, modifyFirst, if_pos rfl]
    constructor
    · simp
    · show (_ : Playbook × List MergeRec).1.bullets = _
      rw [remove_bullet_bullets_eq, hmod]
      have hBid : (applyModifications B none (decide (0 < A.helpful_count))
          false ts).id = B.id :=
        (applyModifications_fields B none (decide (0 < A.helpful_count)) false ts).1
      rw [List.filter_cons, List.filter_cons, List.filter_nil]
      rw [if_neg (by simp), if_pos (by simp [hBid, Ne.symm hid])]
      rw [applyModifications_none_mark]

/-- Witness for C2 on two concrete equal-confidence `core_rules` bullets:
the tie keeps the first bullet of the pair, the second is removed, no
helpful bump happens (the loser had none), and the merge record names the
ids correctly. -/
theorem semantic_deduplication_pair_witness :
    (semantic_deduplication
        ⟨[⟨"bullet_1", "hello", 0, 0, "core_rules", "t", "t"⟩,
          ⟨"bullet_2", "world", 0, 0, "core_rules", "t", "t"⟩], "1.1"⟩
        (fun _ _ => some ⟨true, 1, none⟩) 1 "T").2
      = [⟨"bullet_1", "bullet_2", none⟩] ∧
    (semantic_deduplication
        ⟨[⟨"bullet_1", "hello", 0, 0, "core_rules", "t", "t"⟩,
          ⟨"bullet_2", "world", 0, 0, "core_rules", "t", "t"⟩], "1.1"⟩
        (fun _ _ => some ⟨true, 1, none⟩) 1 "T").1.bullets
      = [⟨"bullet_1", "hello", 0, 0, "core_rules", "t", "t"⟩] := by
  have h := (semantic_deduplication_pair
    ⟨"bullet_1", "hello", 0, 0, "core_rules", "t", "t"⟩
    ⟨"bullet_2", "world", 0, 0, "core_rules", "t", "t"⟩ "1.1" "T"
    (fun _ _ => some ⟨true, 1, none⟩) 1 (by decide) rfl
    ⟨true, 1, none⟩ ⟨true, 1, none⟩ rfl rfl rfl le_rfl rfl le_rfl).1
    (le_of_eq rfl)
  refine ⟨h.1, ?_⟩
  rw [h.2]
  decide

/-- C3: the deduplication pass walks pairs of the snapshot taken before any
merge.  On `pbStale` with an all-duplicates judge: first `bullet_b` loses a
merge against `bullet_a` and is removed from the store; the pass still
evaluates the already-removed `bullet_b` as the first element of the pair
(`bullet_b`, `bullet_c`), and that merge removes the live `bullet_c` in
favor of `bullet_b`, appending a merge record whose kept id (`bullet_b`) is
a bullet no longer in the store.  Only `bullet_a` survives. -/
theorem semantic_deduplication_stale_snapshot :
    (semantic_deduplication pbStale judgeAll 1 "T").2
      = [⟨"bullet_a", "bullet_b", none⟩, ⟨"bullet_b", "bullet_c", none⟩] ∧
    (semantic_deduplication pbStale judgeAll 1 "T").1.bullets.map (fun b => b.id)
      = ["bullet_a"] ∧
    "bullet_c" ∈ pbStale.bullets.map (fun b => b.id) ∧
    "bullet_b" ∉
      (semantic_deduplication pbStale judgeAll 1 "T").1.bullets.map (fun b => b.id) := by
  have hcAB : bulB.get_confidence_score ≤ bulA.get_confidence_score := le_of_eq rfl
  have hcBC : bulC.get_confidence_score ≤ bulB.get_confidence_score := le_of_eq rfl
  have hsort : pbStale.get_all_bullets = [bulA, bulB, bulC] := by
    show sortByConfDesc [bulA, bulB, bulC] = _
    simp [sortByConfDesc, orderedInsertDesc, hcAB, hcBC]
  have hstep : semantic_deduplication pbStale judgeAll 1 "T"
      = (⟨[bulA], defaultVersion⟩,
         [⟨"bullet_a", "bullet_b", none⟩, ⟨"bullet_b", "bullet_c", none⟩]) := by
    rw [semantic_deduplication, hsort, if_neg (by simp)]
    rw [dedupOuter]
    rw [dedupPairLoop_merge_fst judgeAll 1 "T" bulA bulB [bulC] pbStale [] []
      ⟨true, 1, none⟩ (List.not_mem_nil _) rfl rfl rfl le_rfl hcAB]
    have hP1 : (((pbStale.modify_bullet bulA.id none
        (decide (0 < bulB.helpful_count)) false "T").2).remove_bullet bulB.id).2
        = ⟨[bulA, bulC], defaultVersion⟩ := by decide
    dsimp only
    rw [hP1, List.nil_append]
    rw [dedupOuter]
    rw [dedupPairLoop_merge_fst judgeAll 1 "T" bulB bulC []
      ⟨[bulA, bulC], defaultVersion⟩ [bulA.id ++ "_" ++ bulB.id]
      [{ kept := bulA.id, removed := bulB.id, reasoning := none }]
      ⟨true, 1, none⟩ (by decide) rfl rfl rfl le_rfl hcBC]
    have hP2 : ((((⟨[bulA, bulC], defaultVersion⟩ : Playbook).modify_bullet bulB.id
        none (decide (0 < bulC.helpful_count)) false "T").2).remove_bullet bulC.id).2
        = ⟨[bulA], defaultVersion⟩ := by decide
    dsimp only
    rw [hP2]
    rw [dedupOuter, dedupPairLoop, dedupOuter]
    decide
  rw [hstep]
  refine ⟨rfl, by decide, by decide, by decide⟩

/-! ### C1: bullet-id uniqueness -/

theorem mkId_injective {a b : String} (h : mkId a = mkId b) : a = b := by
  have hd : ("bullet_" ++ a).data = ("bullet_" ++ b).data := by
    have hc := congrArg String.data h
    simpa [mkId] using hc
  simp [String.data_append] at hd
  exact String.ext hd

theorem modifyFirst_map_id (i : String) (nc : Option String) (mh mham : Bool)
    (ts : String) (l : List PlaybookBullet) :
    (modifyFirst i nc mh mham ts l).2.map (fun b => b.id)
      = l.map (fun b => b.id) := by
  induction l with
  | nil => rfl
  | cons b rest ih =>
    rw [modifyFirst]
    by_cases hb : b.id = i
    · rw [if_pos hb]
      simp only [List.map_cons]
      rw [(applyModifications_fields b nc mh mham ts).1]
    · rw [if_neg hb]
      dsimp only
      simp only [List.map_cons]
      rw [ih]

/-- Counterexample to C1 as stated: the id is the creation timestamp alone
(no random suffix), so two `addBullet` calls within the same
microsecond-resolution clock reading produce the same id, and the seeded
store reaches a state with a duplicated bullet id. -/
theorem bullet_ids_unique_cex :
    ¬ (((runOps (initialize_default_playbook seedTss)
        [(PbOp.add "extra one" "core_rules", "T"),
         (PbOp.add "extra two" "core_rules", "T")]).bullets.map
          (fun b => b.id)).Nodup) := by
  decide

/-- C1 (amended): bullet ids stay unique across any sequence of add, remove
and modify operations (deduplication mutates only through remove/modify)
provided every creation happens at a distinct clock reading: starting from a
store whose ids are distinct and all derived from already-used timestamps,
running any operation sequence whose timestamps are fresh and pairwise
distinct keeps the ids without duplicates. -/
theorem bullet_ids_unique_amended (ops : List (PbOp × String)) (pb : Playbook)
    (used : List String)
    (h1 : (pb.bullets.map (fun b => b.id)).Nodup)
    (h2 : ∀ b ∈ pb.bullets, ∃ t ∈ used, b.id = mkId t)
    (h3 : (used ++ ops.map Prod.snd).Nodup) :
    ((runOps pb ops).bullets.map (fun b => b.id)).Nodup := by
  induction ops generalizing pb used with
  | nil => exact h1
  | cons p rest ih =>
    obtain ⟨op, ts⟩ := p
    have hts_notin : ts ∉ used := by
      rw [List.nodup_append] at h3
      intro hin
      exact h3.2.2 hin (List.mem_cons_self ts _)
    have h3' : ((used ++ [ts]) ++ rest.map Prod.snd).Nodup := by
      have hre : (used ++ [ts]) ++ rest.map Prod.snd
          = used ++ ts :: rest.map Prod.snd := by
        rw [List.append_assoc]
        rfl
      rw [hre]
      exact h3
    show ((runOps (applyOp pb (op, ts)) rest).bullets.map (fun b => b.id)).Nodup
    cases op with
    | add c s =>
      refine ih _ (used ++ [ts]) ?_ ?_ h3'
      · show ((pb.bullets ++ [newBullet c s ts]).map (fun b => b.id)).Nodup
        rw [List.map_append, List.nodup_append]
        refine ⟨h1, List.nodup_singleton _, ?_⟩
        intro x hx hx2
        simp only [List.map_cons, List.map_nil, List.mem_singleton] at hx2
        subst hx2
        rcases List.mem_map.mp hx with ⟨b, hb, hbid⟩
        rcases h2 b hb with ⟨t, htu, hbt⟩
        have hteq : t = ts := mkId_injective (by rw [← hbt, hbid]; rfl)
        exact hts_notin (hteq ▸ htu)
      · intro b hb
        rcases List.mem_append.mp hb with hb | hb
        · rcases h2 b hb with ⟨t, htu, hbt⟩
          exact ⟨t, List.mem_append_left _ htu, hbt⟩
        · rw [List.mem_singleton] at hb
          subst hb
          exact ⟨ts, List.mem_append_right _ (List.mem_singleton_self ts), rfl⟩
    | remove i =>
      refine ih _ (used ++ [ts]) ?_ ?_ h3'
      · show (((pb.remove_bullet i).2.bullets).map (fun b => b.id)).Nodup
        rw [remove_bullet_bullets_eq]
        exact h1.sublist (List.Sublist.map _ (List.filter_sublist _))
      · intro b hb
        have hb2 : b ∈ (pb.remove_bullet i).2.bullets := hb
        rw [remove_bullet_bullets_eq] at hb2
        have hb' : b ∈ pb.bullets := List.mem_of_mem_filter hb2
        rcases h2 b hb' with ⟨t, htu, hbt⟩
        exact ⟨t, List.mem_append_left _ htu, hbt⟩
    | modify i nc mh mham =>
      refine ih _ (used ++ [ts]) ?_ ?_ h3'
      · show (((pb.modify_bullet i nc mh mham ts).2.bullets).map (fun b => b.id)).Nodup
        have hmf : (pb.modify_bullet i nc mh mham ts).2.bullets
            = (modifyFirst i nc mh mham ts pb.bullets).2 := rfl
        rw [hmf, modifyFirst_map_id]
        exact h1
      · intro b hb
        have hbid : b.id ∈ (modifyFirst i nc mh mham ts pb.bullets).2.map
            (fun b => b.id) := List.mem_map_of_mem _ hb
        rw [modifyFirst_map_id] at hbid
        rcases List.mem_map.mp hbid with ⟨b0, hb0, hb0id⟩
        rcases h2 b0 hb0 with ⟨t, htu, hbt⟩
        refine ⟨t, List.mem_append_left _ htu, ?_⟩
        rw [← hb0id]
        exact hbt

/-- Witness for C1 (amended): the seeded store plus two adds at distinct
fresh timestamps keeps all ids distinct. -/
theorem bullet_ids_unique_amended_witness :
    ((runOps (initialize_default_playbook seedTss)
        [(PbOp.add "extra one" "core_rules", "TA"),
         (PbOp.add "extra two" "core_rules", "TB")]).bullets.map
          (fun b => b.id)).Nodup :=
  bullet_ids_unique_amended
    [(PbOp.add "extra one" "core_rules", "TA"),
     (PbOp.add "extra two" "core_rules", "TB")]
    (initialize_default_playbook seedTss) seedTss
    (by decide) (by decide) (by decide)

end Intake
